import Mathlib

/-!
Verification of the experiment-ledger / optimization-loop core of the
`optina-optimisations` repository.

Shallow embedding conventions:
* Python floats that carry benchmark metrics are modelled as `ℚ`
  (the code only adds, multiplies, negates and compares them).
* Python `None` becomes `Option`.
* Python dicts whose key sets are open (service configs) are modelled as
  association lists `List (String × JVal)` with first-match lookup,
  which models insertion-ordered Python dicts; dict *equality* in Python
  is order-independent, which is why permutation invariance of the
  fingerprint (`config_to_key`) is proved explicitly.
* Functions that can raise (`KeyError`, `TypeError`, unknown cloud
  `ValueError`) return `Option`, `none` modelling the raised exception.
-/

namespace Optina

/-- A scalar JSON value as it appears in the service-config dicts
(`mode`, `cpu_per_node`, `io_threads`, ... are strings, ints or bools). -/
inductive JVal where
  | null
  | s (v : String)
  | i (v : ℤ)
  | b (v : Bool)
  deriving DecidableEq, Repr

/-- First-match lookup in an association list: `d.get(k)` /
`d[k]` on an insertion-ordered Python dict (assumed without duplicate
keys when built by the program). Returns `none` for a missing key. -/
def lookupJ : List (String × JVal) → String → Option JVal
  | [], _ => none
  | (k, v) :: rest, key => if k = key then some v else lookupJ rest key

/-- Python truthiness of a config value (`None`, `0`, `""`, `False`
are falsy). Used by `load_historical_trials` for
`r.get("config", {}).get("cpu_per_node")`. -/
def jTruthy : Option JVal → Bool
  | none => false
  | some JVal.null => false
  | some (JVal.s v) => v ≠ ""
  | some (JVal.i v) => v ≠ 0
  | some (JVal.b v) => v

/-- Python `str.lower()` restricted to the ASCII case mapping used by the
error-classifier substrings. -/
def strLower (s : String) : String := ⟨s.data.map Char.toLower⟩

/-- Does `hay` start with `needle`? -/
def startsWithL : List Char → List Char → Bool
  | [], _ => true
  | _ :: _, [] => false
  | n :: ns, h :: hs => n = h && startsWithL ns hs

/-- Substring containment on character lists. -/
def containsL (needle : List Char) : List Char → Bool
  | [] => startsWithL needle []
  | c :: hs => startsWithL needle (c :: hs) || containsL needle hs

/-- Python `needle in hay` for strings (substring containment). -/
def strContains (hay needle : String) : Bool :=
  containsL needle.data hay.data

/-! ## `pricing.py` -/

/-- The `CloudPricing` dataclass: per-month rates for one provider. -/
structure CloudPricing where
  cpu_cost : ℚ
  ram_cost : ℚ
  disk_cost_multipliers : List (String × ℚ)
  deriving DecidableEq, Repr

/-- Rational-valued lookup in the disk-multiplier table
(`dict.get(key, default)`). -/
def lookupQ : List (String × ℚ) → String → Option ℚ
  | [], _ => none
  | (k, v) :: rest, key => if k = key then some v else lookupQ rest key

/-- The `CLOUD_PRICING` table. -/
def CLOUD_PRICING : List (String × CloudPricing) :=
  [ ("selectel",
     { cpu_cost := 655
       ram_cost := 238
       disk_cost_multipliers :=
         [("fast", 39), ("universal", 18), ("universal2", 9),
          ("basicssd", 9), ("basic", 7)] }),
    ("timeweb",
     { cpu_cost := 220
       ram_cost := 180
       disk_cost_multipliers := [("nvme", 5), ("ssd", 4), ("hdd", 2)] }) ]

/-- Association-list lookup for the pricing table. -/
def lookupP : List (String × CloudPricing) → String → Option CloudPricing
  | [], _ => none
  | (k, v) :: rest, key => if k = key then some v else lookupP rest key

/-- Lookup `get_cloud_pricing`: `none` models the `ValueError` raised for an
unknown cloud. -/
def get_cloud_pricing (cloud : String) : Option CloudPricing :=
  lookupP CLOUD_PRICING cloud

/-- The `CLOUD_MIN_RAM` constraint table: minimum RAM (GB) per vCPU
count. -/
def CLOUD_MIN_RAM : List (String × List (ℤ × ℤ)) :=
  [ ("selectel", [(2, 2), (4, 4), (8, 8), (16, 32), (32, 64)]),
    ("timeweb", []) ]

/-- Integer association lookup used for `CLOUD_MIN_RAM[cloud].get(cpu, 0)`. -/
def lookupZ : List (ℤ × ℤ) → ℤ → Option ℤ
  | [], _ => none
  | (k, v) :: rest, key => if k = key then some v else lookupZ rest key

/-- Outer lookup for `CLOUD_MIN_RAM.get(cloud, {})`. -/
def lookupMinRam : List (String × List (ℤ × ℤ)) → String → Option (List (ℤ × ℤ))
  | [], _ => none
  | (k, v) :: rest, key => if k = key then some v else lookupMinRam rest key

/-- Constraint lookup `get_min_ram_for_cpu(cloud, cpu)`:
`CLOUD_MIN_RAM.get(cloud, {}).get(cpu, 0)`. -/
def get_min_ram_for_cpu (cloud : String) (cpu : ℤ) : ℤ :=
  (lookupZ ((lookupMinRam CLOUD_MIN_RAM cloud).getD []) cpu).getD 0

/-- Function `filter_valid_ram(cloud, cpu, ram_options)`: keep the options that
satisfy the minimum-RAM constraint, falling back to the whole input
list when none does. -/
def filter_valid_ram (cloud : String) (cpu : ℤ) (ram_options : List ℤ) :
    List ℤ :=
  let min_ram := get_min_ram_for_cpu cloud cpu
  let valid := ram_options.filter (fun r => min_ram ≤ r)
  if valid = [] then ram_options else valid

/-- The `DiskConfig` dataclass. -/
structure DiskConfig where
  size_gb : ℤ
  disk_type : String
  count : ℤ
  deriving DecidableEq, Repr

/-- The per-disk cost sum inside `calculate_vm_cost`:
`disk.size_gb * disk.count * multipliers.get(disk.disk_type, 0.01)`. -/
def disk_cost_sum (pricing : CloudPricing) : List DiskConfig → ℚ
  | [] => 0
  | d :: rest =>
      d.size_gb * d.count *
        ((lookupQ pricing.disk_cost_multipliers d.disk_type).getD (1 / 100)) +
      disk_cost_sum pricing rest

/-- Cost function `calculate_vm_cost(cloud, cpu, ram_gb, disks, nodes)`; `none` models
the `ValueError` for an unknown cloud; `disks = none` models the Python
default of a single 50 GB "fast" disk. -/
def calculate_vm_cost (cloud : String) (cpu ram_gb : ℤ)
    (disks : Option (List DiskConfig)) (nodes : ℤ) : Option ℚ :=
  match get_cloud_pricing cloud with
  | none => none
  | some pricing =>
      let ds := disks.getD [{ size_gb := 50, disk_type := "fast", count := 1 }]
      some (nodes * (cpu * pricing.cpu_cost + ram_gb * pricing.ram_cost +
        disk_cost_sum pricing ds))

/-! ## `storage/models.py` -/

/-- The `ServiceType` literal type. -/
inductive ServiceType where
  | meilisearch
  | redis
  | postgres
  | minio
  deriving DecidableEq, Repr

/-- The `InfraConfig` model (fields with their pydantic defaults). -/
structure InfraConfig where
  cpu : ℤ := 0
  ram_gb : ℤ := 0
  disk_type : String := ""
  disk_size_gb : ℤ := 0
  mode : Option String := none
  deriving DecidableEq, Repr

/-- The `Trial` model, restricted to the fields that the embedded store
operations read (`id`, `trial`, `service`, `cloud`, the config dicts,
the four primary metrics and `error`); the remaining metric, timing and
baseline fields are never read by `is_successful`, `get_primary_metric`,
`get_config_key`, `_next_id` or `find_by_config_key` and are omitted. -/
structure Trial where
  id : Option ℤ := none
  trial : Option ℤ := none
  service : ServiceType
  cloud : String
  infra : Option InfraConfig := none
  infra_config : Option InfraConfig := none
  config : Option (List (String × JVal)) := none
  pg_config : Option (List (String × JVal)) := none
  ops_per_sec : Option ℚ := none
  qps : Option ℚ := none
  tps : Option ℚ := none
  total_mib_s : Option ℚ := none
  error : Option String := none
  deriving DecidableEq, Repr

/-- Predicate `Trial.is_successful`: no error and the service's primary metric
(`or 0`) strictly positive. -/
def Trial.is_successful (t : Trial) : Bool :=
  if t.error.isSome then false
  else
    match t.service with
    | ServiceType.redis => decide (0 < t.ops_per_sec.getD 0)
    | ServiceType.meilisearch => decide (0 < t.qps.getD 0)
    | ServiceType.postgres => decide (0 < t.tps.getD 0)
    | ServiceType.minio => decide (0 < t.total_mib_s.getD 0)

/-- Accessor `Trial.get_primary_metric`. -/
def Trial.get_primary_metric (t : Trial) : ℚ :=
  match t.service with
  | ServiceType.redis => t.ops_per_sec.getD 0
  | ServiceType.meilisearch => t.qps.getD 0
  | ServiceType.postgres => t.tps.getD 0
  | ServiceType.minio => t.total_mib_s.getD 0

/-- The dict returned by `Trial.get_config_key`, one constructor per
service branch; every constructor field is one key of the Python dict
(values come from `.get` lookups, hence `Option`). Equality of two
`ConfigKey`s models Python dict equality: key sets are fixed per
branch, and the nested `pg` / `config` dicts are compared as the
association lists the trial carries. -/
inductive ConfigKey where
  | redisKey (cloud : String)
      (mode cpu_per_node ram_per_node maxmemory_policy io_threads
        persistence : Option JVal)
  | minioKey (cloud : String)
      (nodes cpu_per_node ram_per_node drives_per_node drive_size_gb
        drive_type : Option JVal)
  | postgresKey (cloud : String) (infra : Option InfraConfig)
      (pg : Option (List (String × JVal)))
  | meiliKey (cloud : String) (infra : Option InfraConfig)
      (config : Option (List (String × JVal)))
  deriving DecidableEq, Repr

/-- Accessor `Trial.get_config_key`: per-service cache key built from `.get`
lookups on the trial's config dict (`self.config or {}`); for
postgres / meilisearch the infra model dump (or `{}`, modelled as
`none`) and the raw config dict are embedded. -/
def Trial.get_config_key (t : Trial) : ConfigKey :=
  match t.service with
  | ServiceType.redis =>
      let cfg := t.config.getD []
      ConfigKey.redisKey t.cloud (lookupJ cfg "mode")
        (lookupJ cfg "cpu_per_node") (lookupJ cfg "ram_per_node")
        (lookupJ cfg "maxmemory_policy") (lookupJ cfg "io_threads")
        (lookupJ cfg "persistence")
  | ServiceType.minio =>
      let cfg := t.config.getD []
      ConfigKey.minioKey t.cloud (lookupJ cfg "nodes")
        (lookupJ cfg "cpu_per_node") (lookupJ cfg "ram_per_node")
        (lookupJ cfg "drives_per_node") (lookupJ cfg "drive_size_gb")
        (lookupJ cfg "drive_type")
  | ServiceType.postgres =>
      ConfigKey.postgresKey t.cloud t.infra_config t.pg_config
  | ServiceType.meilisearch =>
      ConfigKey.meiliKey t.cloud t.infra t.config

/-! ## `storage/store.py`

The store's in-memory state is its list of trials; the backing JSON
file is a list of trials of all services. -/

/-- Lookup `TrialStore.find_by_config_key`: scan the trials in order, skip
entries that are not successful, return the first whose config key
equals the target (the target is the parsed JSON of the key string). -/
def find_by_config_key (trials : List Trial) (target : ConfigKey) :
    Option Trial :=
  match trials with
  | [] => none
  | t :: rest =>
      if t.is_successful then
        if t.get_config_key = target then some t
        else find_by_config_key rest target
      else find_by_config_key rest target

/-- Python's seedless `max` of a nonempty sequence: fold from the
first element, so an all-negative sequence yields its (negative)
maximum. The `[]` case is unreachable where this is used —
`_next_id` only takes these maxima after its emptiness guard; Python's
`max` would raise `ValueError` there. -/
def pyMax (l : List ℤ) : ℤ :=
  match l with
  | [] => 0
  | v :: vs => vs.foldl max v

/-- Python `max((t.id or 0) for t in trials)` over a nonempty list. -/
def maxIdOf (trials : List Trial) : ℤ :=
  pyMax (trials.map (fun t => t.id.getD 0))

/-- Python `max((t.trial or 0) for t in trials)`. -/
def maxTrialOf (trials : List Trial) : ℤ :=
  pyMax (trials.map (fun t => t.trial.getD 0))

/-- Assignment rule `TrialStore._next_id`: 1 on an empty store, else
`max(max id, max trial) + 1` with missing fields counted as 0. -/
def next_id (trials : List Trial) : ℤ :=
  if trials = [] then 1
  else max (maxIdOf trials) (maxTrialOf trials) + 1

/-- Operation `TrialStore.add_dict` (and `add`), restricted to its in-memory
effect: force the service field, assign `_next_id` when the incoming
record has no id, and append. Returns the new trial list and the
stored trial. -/
def add_dict (service : ServiceType) (trials : List Trial) (data : Trial) :
    List Trial × Trial :=
  let t0 := { data with service := service }
  let t := if t0.id = none then { t0 with id := some (next_id trials) } else t0
  (trials ++ [t], t)

/-- Iterated `add_dict` starting from a given store state. -/
def add_all (service : ServiceType) (trials : List Trial) :
    List Trial → List Trial
  | [] => trials
  | d :: ds => add_all service (add_dict service trials d).1 ds

/-- Operation `TrialStore._save`'s effect on the backing file: keep every loaded
trial of a *different* service, then append this store's trials
(`other_trials + self.trials`). The parse/serialize round trip of
well-formed records is the identity. -/
def save_file (fileTrials : List Trial) (service : ServiceType)
    (mine : List Trial) : List Trial :=
  fileTrials.filter (fun t => t.service ≠ service) ++ mine

/-- The append-and-save a store performs for one new record: `add_dict`
into the in-memory list, then `_save` into the backing file. Returns
the new backing-file contents. -/
def append_and_save (fileTrials : List Trial) (service : ServiceType)
    (mine : List Trial) (data : Trial) : List Trial :=
  save_file fileTrials service (add_dict service mine data).1

/-! ## `optimizers/redis/optimizer.py` — fingerprint and replay -/

/-- Python `json.dumps` rendering of one scalar value (the config values are
plain identifiers and numbers, so no escaping arises). -/
def renderJ : JVal → String
  | JVal.null => "null"
  | JVal.s v => "\"" ++ v ++ "\""
  | JVal.i v => toString v
  | JVal.b v => if v then "true" else "false"

/-- Fingerprint `config_to_key(config, cloud)`: `json.dumps({...}, sort_keys=True)`
over the seven fingerprint fields; the keys appear in sorted order
(`cloud, cpu_per_node, io_threads, maxmemory_policy, mode,
persistence, ram_per_node`). Bracket access `config["mode"]` etc.
raises `KeyError` on a missing key, modelled by `none`. -/
def config_to_key (config : List (String × JVal)) (cloud : String) :
    Option String := do
  let mode ← lookupJ config "mode"
  let cpu ← lookupJ config "cpu_per_node"
  let ram ← lookupJ config "ram_per_node"
  let policy ← lookupJ config "maxmemory_policy"
  let io ← lookupJ config "io_threads"
  let pers ← lookupJ config "persistence"
  pure ("\x7b\"cloud\": " ++ renderJ (JVal.s cloud) ++
    ", \"cpu_per_node\": " ++ renderJ cpu ++
    ", \"io_threads\": " ++ renderJ io ++
    ", \"maxmemory_policy\": " ++ renderJ policy ++
    ", \"mode\": " ++ renderJ mode ++
    ", \"persistence\": " ++ renderJ pers ++
    ", \"ram_per_node\": " ++ renderJ ram ++ "\x7d")

/-- One record of `store.as_dicts()` as read by
`load_historical_trials`: only the four keys the function accesses.
`ops_per_sec = none` models a JSON `null` in the dump. -/
structure HistResult where
  cloud : String
  error : Option String := none
  ops_per_sec : Option ℚ := none
  config : Option (List (String × JVal)) := none
  deriving DecidableEq, Repr

/-- The redis search space `get_config_space(cloud)` returns: finite
allowed value lists per tunable field. -/
structure RedisSpace where
  mode : List String
  cpu_per_node : List ℤ
  ram_per_node : List ℤ
  maxmemory_policy : List String
  io_threads : List ℤ
  persistence : List String
  deriving DecidableEq, Repr

/-- Python `v in xs` for an optional config value against a list of
ints (`True == 1` and `False == 0` in Python; strings and `None`
never equal an int). -/
def memberZ (v : Option JVal) (xs : List ℤ) : Bool :=
  match v with
  | some (JVal.i n) => n ∈ xs
  | some (JVal.b bv) => (if bv then (1 : ℤ) else 0) ∈ xs
  | _ => false

/-- Python `v in xs` against a list of strings. -/
def memberS (v : Option JVal) (xs : List String) : Bool :=
  match v with
  | some (JVal.s s) => s ∈ xs
  | _ => false

/-- The integer a config value denotes when compared against int
lists (used to re-derive the conditional RAM subset from the chosen
CPU). -/
def cpuAsInt (v : Option JVal) : Option ℤ :=
  match v with
  | some (JVal.i n) => some n
  | some (JVal.b bv) => some (if bv then 1 else 0)
  | _ => none

/-- Python truthiness of `r.get("error")` (`None` and `""` are falsy). -/
def errTruthy : Option String → Bool
  | none => false
  | some s => s ≠ ""

/-- The `valid_results` comprehension of `load_historical_trials`:
keep records for this cloud, without error, with positive
`ops_per_sec` and a truthy `cpu_per_node`. `none` models the
`TypeError` of `None > 0` when a dump carries `ops_per_sec: null`
(the `and` chain short-circuits, so earlier rejections avoid it). -/
def hist_filter (cloud : String) : List HistResult → Option (List HistResult)
  | [] => some []
  | r :: rest =>
      if r.cloud ≠ cloud then hist_filter cloud rest
      else if errTruthy r.error then hist_filter cloud rest
      else
        match r.ops_per_sec with
        | none => none
        | some q =>
            if q ≤ 0 then hist_filter cloud rest
            else if jTruthy (lookupJ (r.config.getD []) "cpu_per_node") then
              (hist_filter cloud rest).map (r :: ·)
            else hist_filter cloud rest

/-- The main loop of `load_historical_trials` over `valid_results`:
deduplicate by `config_to_key` (first occurrence wins, the key enters
`seen` before validation), validate every tunable field against the
search space — RAM against the `filter_valid_ram` subset re-derived
from the record's CPU — and emit the surviving records in order.
`none` models the `KeyError` a malformed config raises inside
`config_to_key`. -/
def replay_loop (cloud : String) (space : RedisSpace) (seen : List String) :
    List HistResult → Option (List HistResult)
  | [] => some []
  | r :: rest =>
      let config := r.config.getD []
      match config_to_key config cloud with
      | none => none
      | some key =>
          if key ∈ seen then replay_loop cloud space seen rest
          else
            let seen' := seen ++ [key]
            if ¬ memberZ (lookupJ config "cpu_per_node") space.cpu_per_node then
              replay_loop cloud space seen' rest
            else if ¬ memberS (lookupJ config "mode") space.mode then
              replay_loop cloud space seen' rest
            else if ¬ memberS (lookupJ config "maxmemory_policy")
                space.maxmemory_policy then
              replay_loop cloud space seen' rest
            else if ¬ memberZ (lookupJ config "io_threads") space.io_threads then
              replay_loop cloud space seen' rest
            else if ¬ memberS (lookupJ config "persistence") space.persistence then
              replay_loop cloud space seen' rest
            else
              match cpuAsInt (lookupJ config "cpu_per_node") with
              | none =>
                  -- unreachable: the cpu membership test above passed
                  replay_loop cloud space seen' rest
              | some cpu =>
                  if memberZ (lookupJ config "ram_per_node")
                      (filter_valid_ram cloud cpu space.ram_per_node) then
                    (replay_loop cloud space seen' rest).map (r :: ·)
                  else replay_loop cloud space seen' rest

/-- Replay `load_historical_trials(study, cloud, metric)` restricted to which
ledger records it emits into the study (the scalar attached to each is
`get_metric_value`; oracle-side rejections only shrink the count, so
the emitted list is the outer bound the replay-exclusivity property
is about). -/
def load_historical_trials (cloud : String) (space : RedisSpace)
    (results : List HistResult) : Option (List HistResult) :=
  (hist_filter cloud results).bind (replay_loop cloud space [])

/-! ## `common.py` / `optimizers/minio/optimizer.py` — error
classification and the APPLY retry loop -/

/-- Classifier `is_stale_state_error(stderr)`. -/
def is_stale_state_error : Option String → Bool
  | none => false
  | some stderr =>
      strContains (strLower stderr) "not found" || strContains stderr "404"

/-- Classifier `is_ip_conflict_error(stderr)`: the transient-conflict classifier,
with the `flavor` override checked first. -/
def is_ip_conflict_error : Option String → Bool
  | none => false
  | some stderr =>
      let low := strLower stderr
      if strContains low "flavor" then false
      else if strContains stderr "IpAddressAlreadyAllocated" ||
          strContains low "already allocated" then true
      else if strContains low "already exists" && strContains low "ip" then true
      else if strContains low "resource is busy" ||
          strContains low "try again" then true
      else false

/-- Observable outcome of `deploy_minio`'s terraform-apply loop:
whether an apply succeeded, how many applies ran, and the sleeps
performed on the transient-conflict path (seconds, in order). -/
structure ApplyOutcome where
  success : Bool
  applies : ℕ
  sleeps : List ℕ
  deriving DecidableEq, Repr

/-- The `for attempt in range(max_retries)` apply loop of
`deploy_minio`, over a backend `attempt ↦ (exit code, stderr)`:
success breaks out; a stale-state error clears state and retries; a
transient conflict sleeps `15 * (attempt + 1)` seconds and retries; any
other error returns failure at once; an exhausted loop with a nonzero
last exit code is a failure. The first argument of the recursion is
the remaining iteration budget, the second the current attempt index. -/
def apply_retry_loop (backend : ℕ → ℤ × String) : ℕ → ℕ → ApplyOutcome
  | 0, _ => ⟨false, 0, []⟩
  | fuel + 1, attempt =>
      let res := backend attempt
      if res.1 = 0 then ⟨true, 1, []⟩
      else if is_stale_state_error (some res.2) then
        let o := apply_retry_loop backend fuel (attempt + 1)
        ⟨o.success, o.applies + 1, o.sleeps⟩
      else if is_ip_conflict_error (some res.2) then
        let o := apply_retry_loop backend fuel (attempt + 1)
        ⟨o.success, o.applies + 1, 15 * (attempt + 1) :: o.sleeps⟩
      else ⟨false, 1, []⟩

/-- Entry point of `deploy_minio`'s apply phase with its default `max_retries = 3`. -/
def deploy_minio_apply (backend : ℕ → ℤ × String)
    (max_retries : ℕ := 3) : ApplyOutcome :=
  apply_retry_loop backend max_retries 0

/-! ## Metric scoring (`metrics.py` and its per-service registries) -/

/-- The `Direction` enum. -/
inductive Direction where
  | maximize
  | minimize
  deriving DecidableEq, Repr

/-- The `MetricConfig` record as used by the per-service registries
(`optimizers/*/metrics.py`): name, direction, an optional alternate
result key, and an optional computed extractor. -/
structure MetricConfig where
  name : String
  direction : Direction
  result_key : Option String := none
  extractor : Option (List (String × ℚ) → ℚ) := none

/-- Value lookup in a benchmark-result mapping. -/
def lookupRes : List (String × ℚ) → String → Option ℚ
  | [], _ => none
  | (k, v) :: rest, key => if k = key then some v else lookupRes rest key

/-- Registry lookup. -/
def lookupMC : List (String × MetricConfig) → String → Option MetricConfig
  | [], _ => none
  | (k, v) :: rest, key => if k = key then some v else lookupMC rest key

/-- A scalar handed to the search oracle: a finite float or one of the
two infinities (`float("inf")`, `-float("inf")`). -/
inductive Score where
  | ninf
  | val (q : ℚ)
  | inf
  deriving DecidableEq, Repr

/-- Strictly better for the maximizing oracle: the study is created
with `direction="maximize"`, so a strictly greater scalar is a
strictly better outcome. -/
def Score.better : Score → Score → Bool
  | Score.inf, Score.inf => false
  | Score.inf, _ => true
  | Score.val _, Score.inf => false
  | Score.val q, Score.val r => decide (r < q)
  | Score.val _, Score.ninf => true
  | Score.ninf, _ => false

/-- Modelled from the spec: the registry-aware
`get_metric_value(result, metric, metrics, **kwargs)` of the top-level
`metrics` module is imported by every `optimizers/*/optimizer.py`
but absent from `src/metrics.py`. §4.5's scalar-derivation rule —
maximize returns the raw value, minimize returns the negated value
except that a raw value of exactly 0 makes it "return positive
infinity" — together with the repository's own unit tests
(`TestGetMetricValue`: unknown metric → raw lookup with default 0,
`result_key` overrides the lookup key, an `extractor` computes the
value directly, minimize-zero → `float("inf")`). -/
def get_metric_value (result : List (String × ℚ)) (metric : String)
    (metrics : List (String × MetricConfig)) : Score :=
  match lookupMC metrics metric with
  | none => Score.val ((lookupRes result metric).getD 0)
  | some cfg =>
      match cfg.extractor with
      | some f => Score.val (f result)
      | none =>
          let key := cfg.result_key.getD cfg.name
          let value := (lookupRes result key).getD 0
          match cfg.direction with
          | Direction.maximize => Score.val value
          | Direction.minimize =>
              if value = 0 then Score.inf else Score.val (-value)

/-- The hard-coded `get_metric_value(result, metric)` of
`src/optuna/redis-optimizer/optimizer.py`: only `p99_latency_ms` is
treated as minimize, negating `result.get("p99_latency_ms",
float("inf"))`; everything else is `result.get(metric, 0)`. -/
def get_metric_value_legacy (result : List (String × ℚ)) (metric : String) :
    Score :=
  if metric = "p99_latency_ms" then
    match lookupRes result "p99_latency_ms" with
    | some v => Score.val (-v)
    | none => Score.ninf
  else Score.val ((lookupRes result metric).getD 0)

/-! ## Concrete values used by witnesses and counterexamples -/

/-- The selectel pricing row, for concrete instances. -/
def selectelPricing : CloudPricing :=
  { cpu_cost := 655
    ram_cost := 238
    disk_cost_multipliers :=
      [("fast", 39), ("universal", 18), ("universal2", 9),
       ("basicssd", 9), ("basic", 7)] }

/-- The timeweb pricing row, for concrete instances. -/
def timewebPricing : CloudPricing :=
  { cpu_cost := 220
    ram_cost := 180
    disk_cost_multipliers := [("nvme", 5), ("ssd", 4), ("hdd", 2)] }

/-- A sample successful redis trial. -/
def redisTrialOk : Trial :=
  { service := ServiceType.redis
    cloud := "selectel"
    config := some [("mode", JVal.s "single"), ("cpu_per_node", JVal.i 2),
      ("ram_per_node", JVal.i 4), ("maxmemory_policy", JVal.s "noeviction"),
      ("io_threads", JVal.i 1), ("persistence", JVal.s "none")]
    ops_per_sec := some 100 }

/-- The same configuration recorded as a failed attempt. -/
def redisTrialFailed : Trial :=
  { redisTrialOk with error := some "Benchmark failed", ops_per_sec := some 0 }

/-- A record appended with neither a preset id nor a trial number. -/
def trialRecordPlain : Trial :=
  { service := ServiceType.redis, cloud := "selectel" }

/-- A record carrying the optimizer's trial number 5 (as every
`save_result` payload does). -/
def trialRecordPreset : Trial := { trialRecordPlain with trial := some 5 }

/-- A redis config dict in one key order. -/
def redisCfgA : List (String × JVal) :=
  [("mode", JVal.s "single"), ("cpu_per_node", JVal.i 2),
   ("ram_per_node", JVal.i 4), ("maxmemory_policy", JVal.s "noeviction"),
   ("io_threads", JVal.i 1), ("persistence", JVal.s "none")]

/-- The same logical config with its keys in the reverse order. -/
def redisCfgB : List (String × JVal) := redisCfgA.reverse

/-- A search space whose allowed CPU set is `[4, 8]`. -/
def replaySpace : RedisSpace :=
  { mode := ["single"]
    cpu_per_node := [4, 8]
    ram_per_node := [4, 8, 16]
    maxmemory_policy := ["noeviction"]
    io_threads := [1]
    persistence := ["none"] }

/-- A successful ledger record whose recorded CPU value 2 is outside
`replaySpace`. -/
def histCpu2 : HistResult :=
  { cloud := "selectel"
    ops_per_sec := some 100
    config := some redisCfgA }

/-- A successful ledger record that fits `replaySpace`. -/
def histCpu4 : HistResult :=
  { cloud := "selectel"
    ops_per_sec := some 100
    config := some [("mode", JVal.s "single"), ("cpu_per_node", JVal.i 4),
      ("ram_per_node", JVal.i 8), ("maxmemory_policy", JVal.s "noeviction"),
      ("io_threads", JVal.i 1), ("persistence", JVal.s "none")] }

/-- A one-entry registry holding a minimize-direction metric. -/
def minimizeRegistry : List (String × MetricConfig) :=
  [("latency_ms", { name := "latency_ms", direction := Direction.minimize })]

/-! ## Helper lemmas -/

/-- Unfolding: `disk_cost_sum` is the sum of the per-disk costs. -/
theorem disk_cost_sum_eq_sum (pricing : CloudPricing) :
    ∀ ds : List DiskConfig,
      disk_cost_sum pricing ds =
        (ds.map (fun d => (d.size_gb : ℚ) * d.count *
          ((lookupQ pricing.disk_cost_multipliers d.disk_type).getD (1 / 100)))).sum
  | [] => rfl
  | d :: rest => by
      simp [disk_cost_sum, disk_cost_sum_eq_sum pricing rest]

/-- Members of `filter_valid_ram`'s output come from the input list. -/
theorem filter_valid_ram_subset (cloud : String) (cpu : ℤ)
    (opts : List ℤ) : ∀ x ∈ filter_valid_ram cloud cpu opts, x ∈ opts := by
  intro x hx
  unfold filter_valid_ram at hx
  by_cases h : opts.filter (fun r => get_min_ram_for_cpu cloud cpu ≤ r) = []
  · simpa [h] using hx
  · simp only [h, if_neg h] at hx
    exact (List.mem_filter.mp hx).1

/-- First-match lookup is invariant under permutation when the keys
are distinct. -/
theorem lookupJ_perm {l1 l2 : List (String × JVal)} (h : l1.Perm l2) :
    (l1.map Prod.fst).Nodup → ∀ k, lookupJ l1 k = lookupJ l2 k := by
  induction h with
  | nil => intro _ k; rfl
  | cons x h ih =>
      intro hn k
      obtain ⟨a, b⟩ := x
      rw [List.map_cons] at hn
      by_cases hk : a = k
      · simp [lookupJ, hk]
      · simp only [lookupJ, if_neg hk]
        exact ih (List.nodup_cons.mp hn).2 k
  | swap x y l =>
      intro hn k
      obtain ⟨a, b⟩ := x
      obtain ⟨c, d⟩ := y
      rw [List.map_cons, List.map_cons] at hn
      have hne : c ≠ a := by
        intro hca
        exact (List.nodup_cons.mp hn).1 (hca ▸ List.mem_cons_self a _)
      by_cases h1 : c = k
      · by_cases h2 : a = k
        · exact absurd (h1.trans h2.symm) hne
        · simp [lookupJ, h1, h2]
      · by_cases h2 : a = k
        · simp [lookupJ, h1, h2]
        · simp [lookupJ, h1, h2]
  | trans h1 h2 ih1 ih2 =>
      intro hn k
      rw [ih1 hn k, ih2 (((h1.map Prod.fst).nodup_iff).mp hn) k]

/-! ## Claim theorems -/

/-- C9: the monthly cost is the pure function
`nodes * (cpu * cpu_cost + ram_gb * ram_cost + Σ_disks size_gb * count *
disk_type_multiplier)` for every priced cloud, and in particular
2 vCPU / 4 GB / one 50 GB "fast" disk / 1 node on the table with
cpu_cost 655, ram_cost 238 and fast-multiplier 39 costs exactly 4212. -/
theorem C9_cost_model :
    (∀ (cloud : String) (cpu ram_gb : ℤ) (disks : List DiskConfig)
      (nodes : ℤ) (pricing : CloudPricing),
      get_cloud_pricing cloud = some pricing →
      calculate_vm_cost cloud cpu ram_gb (some disks) nodes =
        some (nodes * (cpu * pricing.cpu_cost + ram_gb * pricing.ram_cost +
          (disks.map (fun d => (d.size_gb : ℚ) * d.count *
            ((lookupQ pricing.disk_cost_multipliers d.disk_type).getD
              (1 / 100)))).sum))) ∧
    get_cloud_pricing "selectel" = some selectelPricing ∧
    selectelPricing.cpu_cost = 655 ∧ selectelPricing.ram_cost = 238 ∧
    lookupQ selectelPricing.disk_cost_multipliers "fast" = some 39 ∧
    calculate_vm_cost "selectel" 2 4
      (some [{ size_gb := 50, disk_type := "fast", count := 1 }]) 1 =
      some 4212 := by
  refine ⟨?_, rfl, rfl, rfl, rfl, ?_⟩
  · intro cloud cpu ram_gb disks nodes pricing h
    simp [calculate_vm_cost, h, disk_cost_sum_eq_sum]
  · norm_num [calculate_vm_cost, get_cloud_pricing, lookupP, CLOUD_PRICING,
      disk_cost_sum, lookupQ]

/-- Witness for C9 at a concrete input. -/
theorem C9_cost_model_witness :
    calculate_vm_cost "timeweb" 1 2
      (some [{ size_gb := 10, disk_type := "ssd", count := 2 }]) 1 =
      some (1 * (1 * timewebPricing.cpu_cost + 2 * timewebPricing.ram_cost +
        ([({ size_gb := 10, disk_type := "ssd", count := 2 } : DiskConfig)].map
          (fun d => (d.size_gb : ℚ) * d.count *
            ((lookupQ timewebPricing.disk_cost_multipliers d.disk_type).getD
              (1 / 100)))).sum)) :=
  C9_cost_model.1 "timeweb" 1 2
    [{ size_gb := 10, disk_type := "ssd", count := 2 }] 1 timewebPricing rfl

/-- C10: on a non-empty RAM option list `filter_valid_ram` never
returns the empty list; it returns exactly the options meeting the
cloud's minimum-RAM-for-CPU constraint (in order) when at least one
does, and the input unchanged when none does — and concretely, on
selectel with 16 vCPUs (minimum 32 GB) the constraint-violating
options `[4, 8]` are returned unchanged, so the recorded RAM value 4
still passes the replay membership check. -/
theorem C10_filter_valid_ram :
    (∀ (cloud : String) (cpu : ℤ) (opts : List ℤ),
      (opts ≠ [] → filter_valid_ram cloud cpu opts ≠ []) ∧
      ((∃ r ∈ opts, get_min_ram_for_cpu cloud cpu ≤ r) →
        filter_valid_ram cloud cpu opts =
          opts.filter (fun r => get_min_ram_for_cpu cloud cpu ≤ r)) ∧
      ((∀ r ∈ opts, r < get_min_ram_for_cpu cloud cpu) →
        filter_valid_ram cloud cpu opts = opts)) ∧
    get_min_ram_for_cpu "selectel" 16 = 32 ∧
    filter_valid_ram "selectel" 16 [4, 8] = [4, 8] ∧
    (4 : ℤ) ∈ filter_valid_ram "selectel" 16 [4, 8] ∧ (4 : ℤ) < 32 := by
  refine ⟨?_, by decide, by decide, by decide, by decide⟩
  intro cloud cpu opts
  refine ⟨?_, ?_, ?_⟩
  · intro hne
    unfold filter_valid_ram
    by_cases h : opts.filter (fun r => get_min_ram_for_cpu cloud cpu ≤ r) = []
    · simpa [h] using hne
    · simp [h]
  · rintro ⟨r, hr, hmin⟩
    unfold filter_valid_ram
    have h : opts.filter (fun r => get_min_ram_for_cpu cloud cpu ≤ r) ≠ [] := by
      intro hnil
      have : r ∈ opts.filter (fun r => get_min_ram_for_cpu cloud cpu ≤ r) :=
        List.mem_filter.mpr ⟨hr, by simpa using hmin⟩
      simp [hnil] at this
    simp [h]
  · intro hall
    unfold filter_valid_ram
    have h : opts.filter (fun r => get_min_ram_for_cpu cloud cpu ≤ r) = [] := by
      rw [List.filter_eq_nil_iff]
      intro r hr
      simpa using not_le.mpr (hall r hr)
    simp [h]

/-- Witness for C10 at a concrete input. -/
theorem C10_filter_valid_ram_witness :
    ([2, 4, 8] : List ℤ) ≠ [] ∧ filter_valid_ram "selectel" 4 [2, 4, 8] ≠ [] :=
  ⟨by decide, ((C10_filter_valid_ram.1 "selectel" 4 [2, 4, 8]).1 (by decide))⟩

/-- C4: appending a record for one service and saving preserves every
backing-store record of every other service, unaltered: the saved file
is the other-services records followed by this store's trials, so any
previously stored record of a different service is still a member. -/
theorem C4_partition_isolation (fileTrials : List Trial)
    (svc : ServiceType) (mine : List Trial) (data : Trial) :
    ∀ t ∈ fileTrials, t.service ≠ svc →
      t ∈ append_and_save fileTrials svc mine data := by
  intro t ht hne
  unfold append_and_save save_file
  exact List.mem_append_left _ (List.mem_filter.mpr ⟨ht, by simpa using hne⟩)

/-- Witness for C4 at a concrete input. -/
theorem C4_partition_isolation_witness :
    ({ service := ServiceType.minio, cloud := "selectel" } : Trial) ∈
      append_and_save [{ service := ServiceType.minio, cloud := "selectel" }]
        ServiceType.redis []
        { service := ServiceType.redis, cloud := "selectel" } :=
  C4_partition_isolation [{ service := ServiceType.minio, cloud := "selectel" }]
    ServiceType.redis [] { service := ServiceType.redis, cloud := "selectel" }
    { service := ServiceType.minio, cloud := "selectel" } (by decide) (by decide)

/-- C8: the classifier labels stderr stale-state exactly when it
contains "not found" case-insensitively or a "404" token; it labels it
transient exactly when it contains "IpAddressAlreadyAllocated" /
"already allocated", "already exists" alongside an "ip"
resource-conflict token, or a generic "resource is busy" / "try again"
token; and a "flavor" token forces the non-transient classification
even when transient markers are present. -/
theorem C8_error_classifier (s : String) :
    is_stale_state_error (some s) =
      (strContains (strLower s) "not found" || strContains s "404") ∧
    is_ip_conflict_error (some s) =
      (!strContains (strLower s) "flavor" &&
        (strContains s "IpAddressAlreadyAllocated" ||
         strContains (strLower s) "already allocated" ||
         (strContains (strLower s) "already exists" &&
           strContains (strLower s) "ip") ||
         strContains (strLower s) "resource is busy" ||
         strContains (strLower s) "try again")) ∧
    (strContains (strLower s) "flavor" = true →
      is_ip_conflict_error (some s) = false) := by
  refine ⟨rfl, ?_, ?_⟩
  · unfold is_ip_conflict_error
    cases hf : strContains (strLower s) "flavor" <;>
      cases h1 : strContains s "IpAddressAlreadyAllocated" <;>
      cases h2 : strContains (strLower s) "already allocated" <;>
      cases h3 : strContains (strLower s) "already exists" <;>
      cases h4 : strContains (strLower s) "ip" <;>
      cases h5 : strContains (strLower s) "resource is busy" <;>
      cases h6 : strContains (strLower s) "try again" <;>
      simp [hf, h1, h2, h3, h4, h5, h6]
  · intro hf
    unfold is_ip_conflict_error
    simp [hf]

/-- Witness for C8 at a concrete input: a flavor/quota error carrying a
transient marker is still classified fatal. -/
theorem C8_error_classifier_witness :
    strContains (strLower "Flavor IP already allocated") "flavor" = true ∧
    is_ip_conflict_error (some "Flavor IP already allocated") = false :=
  ⟨by decide,
   (C8_error_classifier "Flavor IP already allocated").2.2 (by decide)⟩

/-- C7: against a backend whose every apply fails with a
transient-conflict stderr, `deploy_minio`'s APPLY loop runs exactly
`max_retries = 3` applies and reports failure, sleeping
15 × (attempt number) seconds after each failed attempt: 15 s, 30 s,
45 s; and for any iteration budget the number of applies never exceeds
it. -/
theorem C7_retry_ceiling (backend : ℕ → ℤ × String)
    (h : ∀ n, (backend n).1 ≠ 0 ∧
      is_stale_state_error (some (backend n).2) = false ∧
      is_ip_conflict_error (some (backend n).2) = true) :
    deploy_minio_apply backend 3 = ⟨false, 3, [15, 30, 45]⟩ ∧
    ∀ fuel attempt, (apply_retry_loop backend fuel attempt).applies ≤ fuel := by
  constructor
  · have step : ∀ fuel attempt,
        apply_retry_loop backend (fuel + 1) attempt =
          ⟨(apply_retry_loop backend fuel (attempt + 1)).success,
           (apply_retry_loop backend fuel (attempt + 1)).applies + 1,
           15 * (attempt + 1) ::
             (apply_retry_loop backend fuel (attempt + 1)).sleeps⟩ := by
      intro fuel attempt
      obtain ⟨h1, h2, h3⟩ := h attempt
      simp [apply_retry_loop, h1, h2, h3]
    show apply_retry_loop backend 3 0 = ⟨false, 3, [15, 30, 45]⟩
    rw [show (3 : ℕ) = 2 + 1 from rfl, step,
      show (2 : ℕ) = 1 + 1 from rfl, step,
      show (1 : ℕ) = 0 + 1 from rfl, step]
    rfl
  · intro fuel
    induction fuel with
    | zero => intro attempt; simp [apply_retry_loop]
    | succ n ih =>
        intro attempt
        obtain ⟨h1, h2, h3⟩ := h attempt
        simp only [apply_retry_loop, h1, h2, h3]
        simpa using Nat.succ_le_succ (ih (attempt + 1))

/-- Witness for C7 at a concrete backend that always reports an
OpenStack address conflict. -/
theorem C7_retry_ceiling_witness :
    deploy_minio_apply (fun _ => (1, "IpAddressAlreadyAllocated")) 3 =
      ⟨false, 3, [15, 30, 45]⟩ :=
  (C7_retry_ceiling (fun _ => (1, "IpAddressAlreadyAllocated"))
    (fun _ =>
      ⟨(by decide : (1 : ℤ) ≠ 0),
       (by decide : is_stale_state_error (some "IpAddressAlreadyAllocated") =
         false),
       (by decide : is_ip_conflict_error (some "IpAddressAlreadyAllocated") =
         true)⟩)).1

/-- A successful trial has no error and a positive primary metric. -/
theorem successful_fields (t : Trial) (h : t.is_successful = true) :
    t.error = none ∧ 0 < t.get_primary_metric := by
  unfold Trial.is_successful at h
  cases he : t.error with
  | some e => rw [he] at h; simp at h
  | none =>
      refine ⟨rfl, ?_⟩
      rw [he] at h
      unfold Trial.get_primary_metric
      cases hs : t.service <;> rw [hs] at h <;> simpa using h

/-- Lookup `find_by_config_key` returns the first successful entry whose
config key matches. -/
theorem find_by_config_key_spec :
    ∀ (ts : List Trial) (fp : ConfigKey) (t : Trial),
      find_by_config_key ts fp = some t →
      t.is_successful = true ∧ t.get_config_key = fp ∧
      ∃ pre post, ts = pre ++ t :: post ∧
        ∀ u ∈ pre, ¬(u.is_successful = true ∧ u.get_config_key = fp)
  | [], fp, t => by intro h; simp [find_by_config_key] at h
  | x :: rest, fp, t => by
      intro h
      unfold find_by_config_key at h
      by_cases hs : x.is_successful = true
      · by_cases hk : x.get_config_key = fp
        · rw [if_pos hs, if_pos hk] at h
          obtain rfl : x = t := by simpa using h
          exact ⟨hs, hk, [], rest, rfl, by simp⟩
        · rw [if_pos hs, if_neg hk] at h
          obtain ⟨h1, h2, pre, post, hsplit, hpre⟩ :=
            find_by_config_key_spec rest fp t h
          refine ⟨h1, h2, x :: pre, post, by simp [hsplit], ?_⟩
          intro u hu
          rcases List.mem_cons.mp hu with rfl | hu
          · exact fun hc => hk hc.2
          · exact hpre u hu
      · rw [if_neg hs] at h
        obtain ⟨h1, h2, pre, post, hsplit, hpre⟩ :=
          find_by_config_key_spec rest fp t h
        refine ⟨h1, h2, x :: pre, post, by simp [hsplit], ?_⟩
        intro u hu
        rcases List.mem_cons.mp hu with rfl | hu
        · exact fun hc => hs hc.1
        · exact hpre u hu

/-- Completeness of `find_by_config_key`: when some successful entry
with the target key is stored, the lookup returns an entry (it does
not come back empty). -/
theorem find_by_config_key_total :
    ∀ (ts : List Trial) (fp : ConfigKey) (u : Trial), u ∈ ts →
      u.is_successful = true → u.get_config_key = fp →
      ∃ t : Trial, find_by_config_key ts fp = some t
  | [], fp, u => by
      intro hu _ _
      exact absurd hu (List.not_mem_nil u)
  | x :: rest, fp, u => by
      intro hu hsu hku
      unfold find_by_config_key
      by_cases hs : x.is_successful = true
      · by_cases hk : x.get_config_key = fp
        · exact ⟨x, by rw [if_pos hs, if_pos hk]⟩
        · rw [if_pos hs, if_neg hk]
          rcases List.mem_cons.mp hu with rfl | hu2
          · exact absurd hku hk
          · exact find_by_config_key_total rest fp u hu2 hsu hku
      · rw [if_neg hs]
        rcases List.mem_cons.mp hu with rfl | hu2
        · exact absurd hsu hs
        · exact find_by_config_key_total rest fp u hu2 hsu hku

/-- C2: for every ledger state and fingerprint, the lookup returns the
first stored entry whose fingerprint matches and whose
`is_successful()` holds — whenever any successful matching entry is
stored, the lookup does return one (completeness), and whatever it
returns is the first such entry (soundness); a returned entry has no
error and a positive primary metric (so error-bearing or
zero/missing-metric entries are never returned); and on the empty
ledger the lookup returns `none`. -/
theorem C2_find_by_fingerprint :
    ∀ (ts : List Trial) (fp : ConfigKey),
      find_by_config_key ([] : List Trial) fp = none ∧
      (∀ t : Trial, find_by_config_key ts fp = some t →
        t.is_successful = true ∧ t.error = none ∧
        0 < t.get_primary_metric ∧ t.get_config_key = fp ∧
        ∃ pre post, ts = pre ++ t :: post ∧
          ∀ u ∈ pre, ¬(u.is_successful = true ∧ u.get_config_key = fp)) ∧
      ((∃ u ∈ ts, u.is_successful = true ∧ u.get_config_key = fp) →
        ∃ t : Trial, find_by_config_key ts fp = some t) := by
  intro ts fp
  refine ⟨rfl, ?_, ?_⟩
  · intro t h
    obtain ⟨h1, h2, hfirst⟩ := find_by_config_key_spec ts fp t h
    obtain ⟨he, hm⟩ := successful_fields t h1
    exact ⟨h1, he, hm, h2, hfirst⟩
  · rintro ⟨u, hu, hsu, hku⟩
    exact find_by_config_key_total ts fp u hu hsu hku

/-- Witness for C2: on a ledger holding a failed attempt followed by a
success for the same configuration, the lookup returns the successful
entry, skipping the failed one. -/
theorem C2_find_by_fingerprint_witness :
    (redisTrialOk.is_successful = true ∧ redisTrialOk.error = none ∧
      0 < redisTrialOk.get_primary_metric ∧
      redisTrialOk.get_config_key = redisTrialOk.get_config_key ∧
      ∃ pre post,
        [redisTrialFailed, redisTrialOk] = pre ++ redisTrialOk :: post ∧
        ∀ u ∈ pre, ¬(u.is_successful = true ∧
          u.get_config_key = redisTrialOk.get_config_key)) ∧
    ∃ t : Trial, find_by_config_key [redisTrialFailed, redisTrialOk]
      redisTrialOk.get_config_key = some t :=
  ⟨(C2_find_by_fingerprint [redisTrialFailed, redisTrialOk]
      redisTrialOk.get_config_key).2.1 redisTrialOk (by decide),
   (C2_find_by_fingerprint [redisTrialFailed, redisTrialOk]
      redisTrialOk.get_config_key).2.2
     ⟨redisTrialOk, by decide, by decide, rfl⟩⟩

/-- The id of position `i` in a freshly filled ledger: `i + 1`. -/
def posId (i : ℕ) : ℤ := (i : ℤ) + 1

/-- Folding `max` over the ids `1..k` from a non-negative seed. -/
theorem foldl_max_range (k : ℕ) :
    ∀ a : ℤ, 0 ≤ a →
      ((List.range k).map posId).foldl max a = max a k := by
  induction k with
  | zero => intro a ha; simpa using (max_eq_left ha).symm
  | succ n ih =>
      intro a ha
      rw [List.range_succ, List.map_append, List.foldl_append, ih a ha]
      simp only [List.map_cons, List.map_nil, List.foldl_cons, List.foldl_nil]
      rw [max_assoc]
      congr 1
      rw [max_eq_right]
      · simp [posId]
      · simp only [posId]
        omega

/-- Python's seedless `max` of a nonempty list whose head is
non-negative coincides with the 0-seeded fold. -/
theorem pyMax_cons_nonneg (v : ℤ) (vs : List ℤ) (hv : 0 ≤ v) :
    pyMax (v :: vs) = (v :: vs).foldl max 0 := by
  simp [pyMax, List.foldl_cons, max_eq_right hv]

/-- Folding `max` from 0 over a list of zeros stays 0. -/
theorem foldl_max_zeros : ∀ l : List ℤ,
    (∀ x ∈ l, x = (0 : ℤ)) → l.foldl max 0 = 0
  | [] => fun _ => rfl
  | v :: vs => by
      intro h
      have hv : v = 0 := h v (by simp)
      rw [List.foldl_cons, hv, max_self]
      exact foldl_max_zeros vs (fun x hx => h x (by simp [hx]))

/-- With every `trial` field unset, the trial-number maximum is 0. -/
theorem maxTrialOf_none : ∀ ts : List Trial,
    (∀ t ∈ ts, t.trial = none) → maxTrialOf ts = 0
  | [] => fun _ => rfl
  | x :: rest => by
      intro h
      have hx : x.trial = none := h x (by simp)
      unfold maxTrialOf
      rw [List.map_cons, hx]
      simp only [Option.getD_none]
      rw [pyMax_cons_nonneg 0 _ le_rfl]
      apply foldl_max_zeros
      intro y hy
      rcases List.mem_cons.mp hy with rfl | hy2
      · rfl
      · obtain ⟨t, ht, rfl⟩ := List.mem_map.mp hy2
        rw [h t (List.mem_cons_of_mem x ht)]
        rfl

/-- Invariant step for C3: appending id-less, trial-number-less records
onto a store whose ids are `1..k` extends the ids to `1..k+n`. -/
theorem add_all_ids (svc : ServiceType) :
    ∀ (recs : List Trial) (k : ℕ) (ts : List Trial),
      (∀ d ∈ recs, d.id = none ∧ d.trial = none) →
      ts.map (fun t => t.id) = (List.range k).map (fun i => some (posId i)) →
      (∀ t ∈ ts, t.trial = none) →
      (add_all svc ts recs).map (fun t => t.id) =
        (List.range (k + recs.length)).map (fun i => some (posId i))
  | [], k, ts => by
      intro _ hids _
      simpa [add_all] using hids
  | d :: ds, k, ts => by
      intro hrecs hids htr
      have hd := hrecs d (by simp)
      have hnext : next_id ts = (k : ℤ) + 1 := by
        unfold next_id
        by_cases hts : ts = []
        · have hk : k = 0 := by
            subst hts
            have h0 : (List.range k).map (fun i => some (posId i)) = [] :=
              hids.symm
            simpa [List.map_eq_nil_iff, List.range_eq_nil] using h0
          rw [if_pos hts, hk]
          norm_num
        · have hmapid : ts.map (fun t => t.id.getD 0) =
              (List.range k).map posId := by
            have hc := congrArg (List.map (fun o : Option ℤ => o.getD 0)) hids
            rw [List.map_map, List.map_map] at hc
            simpa [Function.comp, posId] using hc
          have hmax : maxIdOf ts = (k : ℤ) := by
            obtain ⟨m, rfl⟩ : ∃ m, k = m + 1 := by
              cases k with
              | zero =>
                  exfalso
                  apply hts
                  have hnil : ts.map (fun t => t.id) = [] := by simpa using hids
                  exact List.map_eq_nil_iff.mp hnil
              | succ m => exact ⟨m, rfl⟩
            unfold maxIdOf
            rw [hmapid, List.range_succ_eq_map, List.map_cons,
              pyMax_cons_nonneg _ _ (by norm_num [posId]),
              ← List.map_cons, ← List.range_succ_eq_map,
              foldl_max_range (m + 1) 0 le_rfl]
            exact max_eq_right (Int.ofNat_nonneg (m + 1))
          rw [if_neg hts, hmax, maxTrialOf_none ts htr,
            max_eq_left (Int.ofNat_nonneg k)]
      have h_id : ((add_dict svc ts d).2).id = some (next_id ts) := by
        simp [add_dict, hd.1]
      have h_trial : ((add_dict svc ts d).2).trial = d.trial := by
        simp [add_dict, hd.1]
      have h_fst : (add_dict svc ts d).1 = ts ++ [(add_dict svc ts d).2] := by
        simp [add_dict]
      have hids2 : ((add_dict svc ts d).1).map (fun t : Trial => t.id) =
          (List.range (k + 1)).map (fun i => some (posId i)) := by
        rw [h_fst, List.map_append, hids, List.range_succ, List.map_append]
        simp [h_id, hnext, posId]
      have htr2 : ∀ t ∈ (add_dict svc ts d).1, t.trial = none := by
        rw [h_fst]
        intro t ht
        rcases List.mem_append.mp ht with h | h
        · exact htr t h
        · rw [List.mem_singleton.mp h, h_trial]
          exact hd.2
      have harith : k + (d :: ds).length = (k + 1) + ds.length := by
        simp only [List.length_cons]
        omega
      show (add_all svc (add_dict svc ts d).1 ds).map (fun t => t.id) =
        (List.range (k + (d :: ds).length)).map (fun i => some (posId i))
      rw [harith]
      exact add_all_ids svc ds (k + 1) _
        (fun x hx => hrecs x (by simp [hx])) hids2 htr2

/-- C3 counterexample: the claim "IDs are exactly 1..N for every
sequence of N appends / the assigned ID is max(existing ids) + 1" is
false as stated — `_next_id` also maxes over the optimizer-supplied
`trial` numbers, so appending a record carrying `trial = 5` and then a
plain record yields ids 1, 6, not 1, 2. -/
theorem C3_id_counterexample :
    (add_all ServiceType.redis [] [trialRecordPreset, trialRecordPlain]).map
      (fun t => t.id) = [some 1, some 6] ∧
    (add_all ServiceType.redis [] [trialRecordPreset, trialRecordPlain]).map
      (fun t => t.id) ≠ [some 1, some 2] ∧
    maxIdOf (add_all ServiceType.redis [] [trialRecordPreset]) = 1 := by
  refine ⟨by decide, ?_, by decide⟩
  intro h
  rw [(by decide : (add_all ServiceType.redis []
    [trialRecordPreset, trialRecordPlain]).map (fun t => t.id) =
    [some 1, some 6])] at h
  simp at h

/-- C3 (amended): for every sequence of N appends of records with no
preset id *and no optimizer trial number* to an empty ledger, the
assigned IDs are exactly 1..N in append order; in general the ID
assigned at insertion is `max(existing ids, existing trial numbers) + 1`
(1 when the ledger is empty), not `max(existing ids) + 1`. -/
theorem C3_id_assignment :
    (∀ (svc : ServiceType) (recs : List Trial),
      (∀ d ∈ recs, d.id = none ∧ d.trial = none) →
      (add_all svc [] recs).map (fun t => t.id) =
        (List.range recs.length).map (fun i => some (posId i))) ∧
    (∀ (svc : ServiceType) (ts : List Trial) (d : Trial), d.id = none →
      ((add_dict svc ts d).2).id = some (next_id ts)) ∧
    next_id [] = 1 := by
  refine ⟨?_, ?_, rfl⟩
  · intro svc recs hrecs
    simpa using add_all_ids svc recs 0 [] hrecs (by simp) (by simp)
  · intro svc ts d hid
    simp [add_dict, hid]

/-- Witness for C3 (amended) on three plain appends: ids 1, 2, 3. -/
theorem C3_id_assignment_witness :
    (add_all ServiceType.redis []
      [trialRecordPlain, trialRecordPlain, trialRecordPlain]).map
        (fun t => t.id) =
      (List.range 3).map (fun i => some (posId i)) :=
  C3_id_assignment.1 ServiceType.redis
    [trialRecordPlain, trialRecordPlain, trialRecordPlain]
    (by intro d hd
        have : d = trialRecordPlain := by
          rcases List.mem_cons.mp hd with h | hd
          · exact h
          rcases List.mem_cons.mp hd with h | hd
          · exact h
          · simpa using hd
        rw [this]
        exact ⟨rfl, rfl⟩)

/-- C5: the fingerprint is a pure function of the configuration's
key-value mapping: permuting the key order of a configuration (with
distinct keys, as Python dicts guarantee) canonicalizes to the
byte-identical key string. -/
theorem C5_fingerprint_stability (cloud : String)
    (c1 c2 : List (String × JVal)) (hperm : c1.Perm c2)
    (hnodup : (c1.map Prod.fst).Nodup) :
    config_to_key c1 cloud = config_to_key c2 cloud := by
  unfold config_to_key
  rw [lookupJ_perm hperm hnodup "mode",
    lookupJ_perm hperm hnodup "cpu_per_node",
    lookupJ_perm hperm hnodup "ram_per_node",
    lookupJ_perm hperm hnodup "maxmemory_policy",
    lookupJ_perm hperm hnodup "io_threads",
    lookupJ_perm hperm hnodup "persistence"]

/-- Witness for C5: a config dict and its key-reversed permutation
fingerprint to the identical string. -/
theorem C5_fingerprint_stability_witness :
    config_to_key redisCfgA "selectel" = config_to_key redisCfgB "selectel" :=
  C5_fingerprint_stability "selectel" redisCfgA redisCfgB
    (redisCfgA.reverse_perm.symm) (by decide)

/-- Membership in the conditional RAM subset implies membership in the
unconditional allowed set. -/
theorem memberZ_filter_valid_ram (cloud : String) (cpu : ℤ)
    (opts : List ℤ) (v : Option JVal)
    (h : memberZ v (filter_valid_ram cloud cpu opts) = true) :
    memberZ v opts = true := by
  cases v with
  | none => simp [memberZ] at h
  | some jv =>
      cases jv with
      | null => simp [memberZ] at h
      | s sv => simp [memberZ] at h
      | i n =>
          simp only [memberZ] at h ⊢
          exact decide_eq_true
            (filter_valid_ram_subset cloud cpu opts n (of_decide_eq_true h))
      | b bv =>
          simp only [memberZ] at h ⊢
          exact decide_eq_true
            (filter_valid_ram_subset cloud cpu opts _ (of_decide_eq_true h))

/-- Every record `replay_loop` emits passed all search-space
membership checks, RAM against the re-derived conditional subset. -/
theorem replay_loop_emits (cloud : String) (space : RedisSpace) :
    ∀ (rs : List HistResult) (seen : List String) (out : List HistResult),
      replay_loop cloud space seen rs = some out →
      ∀ r ∈ out,
        memberZ (lookupJ (r.config.getD []) "cpu_per_node")
          space.cpu_per_node = true ∧
        memberS (lookupJ (r.config.getD []) "mode") space.mode = true ∧
        memberS (lookupJ (r.config.getD []) "maxmemory_policy")
          space.maxmemory_policy = true ∧
        memberZ (lookupJ (r.config.getD []) "io_threads")
          space.io_threads = true ∧
        memberS (lookupJ (r.config.getD []) "persistence")
          space.persistence = true ∧
        ∃ n, cpuAsInt (lookupJ (r.config.getD []) "cpu_per_node") = some n ∧
          memberZ (lookupJ (r.config.getD []) "ram_per_node")
            (filter_valid_ram cloud n space.ram_per_node) = true
  | [], seen, out => by
      intro h r hr
      obtain rfl : ([] : List HistResult) = out := Option.some.inj h
      exact absurd hr (List.not_mem_nil r)
  | rr :: rest, seen, out => by
      intro h r hr
      rw [replay_loop] at h
      cases hkey : config_to_key (rr.config.getD []) cloud with
      | none =>
          rw [hkey] at h
          dsimp only at h
          exact absurd h (by simp)
      | some key =>
          rw [hkey] at h
          dsimp only at h
          by_cases hseen : key ∈ seen
          · rw [if_pos hseen] at h
            exact replay_loop_emits cloud space rest seen out h r hr
          · rw [if_neg hseen] at h
            by_cases h1 : memberZ (lookupJ (rr.config.getD []) "cpu_per_node")
                space.cpu_per_node = true
            case neg =>
              rw [if_pos h1] at h
              exact replay_loop_emits cloud space rest _ out h r hr
            rw [if_neg (not_not_intro h1)] at h
            by_cases h2 : memberS (lookupJ (rr.config.getD []) "mode")
                space.mode = true
            case neg =>
              rw [if_pos h2] at h
              exact replay_loop_emits cloud space rest _ out h r hr
            rw [if_neg (not_not_intro h2)] at h
            by_cases h3 : memberS (lookupJ (rr.config.getD [])
                "maxmemory_policy") space.maxmemory_policy = true
            case neg =>
              rw [if_pos h3] at h
              exact replay_loop_emits cloud space rest _ out h r hr
            rw [if_neg (not_not_intro h3)] at h
            by_cases h4 : memberZ (lookupJ (rr.config.getD []) "io_threads")
                space.io_threads = true
            case neg =>
              rw [if_pos h4] at h
              exact replay_loop_emits cloud space rest _ out h r hr
            rw [if_neg (not_not_intro h4)] at h
            by_cases h5 : memberS (lookupJ (rr.config.getD []) "persistence")
                space.persistence = true
            case neg =>
              rw [if_pos h5] at h
              exact replay_loop_emits cloud space rest _ out h r hr
            rw [if_neg (not_not_intro h5)] at h
            cases hcpu : cpuAsInt (lookupJ (rr.config.getD [])
                "cpu_per_node") with
            | none =>
                rw [hcpu] at h
                dsimp only at h
                exact replay_loop_emits cloud space rest _ out h r hr
            | some cpu =>
                rw [hcpu] at h
                dsimp only at h
                by_cases h6 : memberZ (lookupJ (rr.config.getD [])
                    "ram_per_node")
                    (filter_valid_ram cloud cpu space.ram_per_node) = true
                case neg =>
                  rw [if_neg h6] at h
                  exact replay_loop_emits cloud space rest _ out h r hr
                rw [if_pos h6] at h
                obtain ⟨out2, hout2, rfl⟩ := Option.map_eq_some'.mp h
                rcases List.mem_cons.mp hr with rfl | hr2
                · exact ⟨h1, h2, h3, h4, h5, cpu, hcpu, h6⟩
                · exact replay_loop_emits cloud space rest _ out2 hout2 r hr2

/-- C6: for every ledger and current search space, historical replay
never emits a record whose tunable field values lie outside the
space's allowed sets, and the RAM value is additionally inside the
conditional subset re-derived from the record's CPU via
`filter_valid_ram`; records failing any check are dropped. -/
theorem C6_replay_exclusivity (cloud : String) (space : RedisSpace)
    (results out : List HistResult)
    (h : load_historical_trials cloud space results = some out) :
    ∀ r ∈ out,
      memberZ (lookupJ (r.config.getD []) "cpu_per_node")
        space.cpu_per_node = true ∧
      memberS (lookupJ (r.config.getD []) "mode") space.mode = true ∧
      memberS (lookupJ (r.config.getD []) "maxmemory_policy")
        space.maxmemory_policy = true ∧
      memberZ (lookupJ (r.config.getD []) "io_threads")
        space.io_threads = true ∧
      memberS (lookupJ (r.config.getD []) "persistence")
        space.persistence = true ∧
      ∃ n, cpuAsInt (lookupJ (r.config.getD []) "cpu_per_node") = some n ∧
        memberZ (lookupJ (r.config.getD []) "ram_per_node")
          (filter_valid_ram cloud n space.ram_per_node) = true ∧
        memberZ (lookupJ (r.config.getD []) "ram_per_node")
          space.ram_per_node = true := by
  intro r hr
  obtain ⟨mid, hmid, hloop⟩ := Option.bind_eq_some.mp h
  obtain ⟨c1, c2, c3, c4, c5, n, hcpu, hram⟩ :=
    replay_loop_emits cloud space mid [] out hloop r hr
  exact ⟨c1, c2, c3, c4, c5, n, hcpu, hram,
    memberZ_filter_valid_ram cloud n space.ram_per_node _ hram⟩

/-- Witness for C6: a ledger with a cpu=2 record and a cpu=4 record
replayed against a space allowing cpu `[4, 8]` emits only the cpu=4
record, whose fields all pass the membership checks. -/
theorem C6_replay_exclusivity_witness :
    load_historical_trials "selectel" replaySpace [histCpu2, histCpu4] =
      some [histCpu4] ∧
    memberZ (lookupJ (histCpu4.config.getD []) "cpu_per_node")
      replaySpace.cpu_per_node = true :=
  ⟨by decide,
   (C6_replay_exclusivity "selectel" replaySpace [histCpu2, histCpu4]
     [histCpu4] (by decide) histCpu4 (by simp)).1⟩

/-- C1 counterexample: the claim says a minimize-direction metric with
raw value exactly 0 scores as the *worst* possible outcome, never
better than any positive value's score. In fact the scalar handed to
the maximizing oracle is `float("inf")` (as the repository's own
`TestGetMetricValue` pins), which the oracle treats as strictly
*better* than the score `-v` of every positive raw value v — here at
v = 1; the legacy redis scorer likewise yields `-0 = 0 > -1`. -/
theorem C1_score_counterexample :
    get_metric_value [("latency_ms", 0)] "latency_ms" minimizeRegistry =
      Score.inf ∧
    get_metric_value [("latency_ms", 1)] "latency_ms" minimizeRegistry =
      Score.val (-1) ∧
    Score.better
      (get_metric_value [("latency_ms", 0)] "latency_ms" minimizeRegistry)
      (get_metric_value [("latency_ms", 1)] "latency_ms" minimizeRegistry) =
      true ∧
    get_metric_value_legacy [("p99_latency_ms", 0)] "p99_latency_ms" =
      Score.val 0 ∧
    Score.better
      (get_metric_value_legacy [("p99_latency_ms", 0)] "p99_latency_ms")
      (get_metric_value_legacy [("p99_latency_ms", 1)] "p99_latency_ms") =
      true := by
  refine ⟨?_, ?_, ?_, ?_, ?_⟩ <;> decide

/-- C1 (amended): for every registered metric without a computed
extractor, the scalar returned to the maximizing oracle is the raw
value when the direction is maximize and the negated value when
minimize — except that a minimize metric whose raw value is exactly 0
scores positive infinity, a value never equal to the score of any
positive raw value but one the maximizing oracle treats as strictly
better (the best, not the worst, possible outcome). -/
theorem C1_scalar_rule (metrics : List (String × MetricConfig))
    (name : String) (cfg : MetricConfig) (result : List (String × ℚ))
    (hlook : lookupMC metrics name = some cfg)
    (hext : cfg.extractor = none) :
    (cfg.direction = Direction.maximize →
      get_metric_value result name metrics =
        Score.val ((lookupRes result (cfg.result_key.getD cfg.name)).getD 0)) ∧
    (cfg.direction = Direction.minimize →
      (lookupRes result (cfg.result_key.getD cfg.name)).getD 0 ≠ 0 →
      get_metric_value result name metrics =
        Score.val (-((lookupRes result (cfg.result_key.getD cfg.name)).getD 0))) ∧
    (cfg.direction = Direction.minimize →
      (lookupRes result (cfg.result_key.getD cfg.name)).getD 0 = 0 →
      get_metric_value result name metrics = Score.inf ∧
      ∀ v : ℚ, 0 < v →
        Score.inf ≠ Score.val (-v) ∧
        Score.better Score.inf (Score.val (-v)) = true) := by
  refine ⟨?_, ?_, ?_⟩
  · intro hdir
    simp [get_metric_value, hlook, hext, hdir]
  · intro hdir hne
    simp [get_metric_value, hlook, hext, hdir, hne]
  · intro hdir hz
    refine ⟨by simp [get_metric_value, hlook, hext, hdir, hz], ?_⟩
    intro v _
    exact ⟨by simp, rfl⟩

/-- Witness for C1 (amended) at concrete inputs: a positive raw value
is negated, a zero raw value scores positive infinity. -/
theorem C1_scalar_rule_witness :
    get_metric_value [("latency_ms", 5)] "latency_ms" minimizeRegistry =
      Score.val (-((lookupRes [("latency_ms", 5)]
        ((({ name := "latency_ms", direction := Direction.minimize } :
          MetricConfig).result_key).getD "latency_ms")).getD 0)) :=
  (C1_scalar_rule minimizeRegistry "latency_ms"
    { name := "latency_ms", direction := Direction.minimize }
    [("latency_ms", 5)] rfl rfl).2.1 rfl (by decide)

end Optina
